import Mathlib

/-!
Shallow embedding of the huawei-OLT-IA session driver and output-extraction
engine (files `huawei_ont_manager.py`, `src/huawei_ont_manager.py`,
`src/huawei_ont_list.py`, `src/huawei_ont_status.py`).

Strings are modelled as `String`/`List Char`; the Python regular expressions
used by the sources are small and consist of greedy/lazy character-class
quantifiers juxtaposed with literals whose adjacent classes are disjoint, so
each one is translated into an equivalent deterministic maximal-munch parser
(the justification for each is noted at its definition).  The interactive
SSH channel is modelled as a trace of poll events (a chunk arriving, or no
data being ready), which captures every schedule of the real channel.
-/

namespace OLT

/-! ### Character classes (Python `re`, ASCII range as used by the device) -/

/-- Python `\s` (ASCII): space, tab, newline, carriage return, vertical tab,
form feed. -/
def isSp (c : Char) : Bool :=
  c = ' ' || c = '\t' || c = '\n' || c = '\r' || c = '\x0b' || c = '\x0c'

/-- Python `\d`. -/
def isDigitC (c : Char) : Bool := '0' ≤ c && c ≤ '9'

/-- Python `\w` (ASCII): letters, digits, underscore. -/
def isWordC (c : Char) : Bool := c.isAlpha || isDigitC c || c = '_'

/-- Character class `[A-F0-9]` (serial-number column). -/
def isHexUpC (c : Char) : Bool := ('A' ≤ c && c ≤ 'F') || isDigitC c

/-- Character class `[\d-]` (date column). -/
def isDateC (c : Char) : Bool := isDigitC c || c = '-'

/-- Character class `[\d:]` (time column). -/
def isTimeC (c : Char) : Bool := isDigitC c || c = ':'

/-- Character class `[^\s]`. -/
def isNonSpC (c : Char) : Bool := !(isSp c)

/-- Character class `[^/]`. -/
def isNonSlashC (c : Char) : Bool := c ≠ '/'

/-- Character class `[-\d.]` (optical readings). -/
def isNumC (c : Char) : Bool := c = '-' || isDigitC c || c = '.'

/-- Character class `[^\r\n]` (rest-of-line captures). -/
def isNonNlC (c : Char) : Bool := c ≠ '\r' && c ≠ '\n'

/-! ### Elementary string operations -/

/-- `startsWithL needle hay`: `needle` is a prefix of `hay`. -/
def startsWithL : List Char → List Char → Bool
  | [], _ => true
  | _ :: _, [] => false
  | a :: as, b :: bs => a = b && startsWithL as bs

/-- Python's `needle in hay` substring test. -/
def hasSubL (needle : List Char) : List Char → Bool
  | [] => startsWithL needle []
  | c :: t => startsWithL needle (c :: t) || hasSubL needle t

/-- Python's `needle in hay` on `String`s. -/
def hasSub (needle s : String) : Bool := hasSubL needle.data s.data

/-- Number of (possibly overlapping) occurrence positions of `needle`. -/
def countSubL (needle : List Char) : List Char → Nat
  | [] => if startsWithL needle [] then 1 else 0
  | c :: t => (if startsWithL needle (c :: t) then 1 else 0) + countSubL needle t

/-- Occurrence count on `String`s (used only to state claims about
pagination markers, where the needle is non-empty). -/
def countSub (needle s : String) : Nat := countSubL needle.data s.data

/-- Python `str.strip()` restricted to the `\s` class. -/
def stripL (cs : List Char) : List Char :=
  ((cs.dropWhile isSp).reverse.dropWhile isSp).reverse

/-- Python `output.split('\n')`. -/
def splitNl : List Char → List (List Char)
  | [] => [[]]
  | c :: t =>
    if c = '\n' then [] :: splitNl t
    else
      match splitNl t with
      | [] => [[c]]
      | h :: r => (c :: h) :: r

/-- `endsW suf s`: `s` ends with `suf`. -/
def endsW (suf s : String) : Bool := startsWithL suf.data.reverse s.data.reverse

/-! ### Deterministic translation of the greedy regex pieces -/

/-- Greedy `cls+`: succeeds iff the first character is in the class, and
consumes the maximal run.  Faithful to Python wherever the character that
must follow the run is outside the class (true at every use site). -/
def take1Plus (p : Char → Bool) (cs : List Char) : Option (List Char × List Char) :=
  match cs with
  | [] => none
  | c :: t => if p c then some (c :: t.takeWhile p, t.dropWhile p) else none

/-- The tail capture `(.+?)\s*$` applied to a remainder known to be free of
`'\n'` and starting with a non-space character (the remainder right after a
mandatory `\s+` was consumed): the lazy group takes the remainder with its
trailing whitespace removed. -/
def lazyTail (m : List Char) : Option (List Char) :=
  let t := (m.reverse.dropWhile isSp).reverse
  if t.contains '\n' then none
  else if t.isEmpty then none
  else some t

/-- The suffix `\s+(.+?)\s*$` of the row patterns.  At least one space must
separate the previous column from the capture; when the remainder is all
whitespace Python backtracks `\s+` by one character and the lazy group
captures a single whitespace character (which callers `.strip()` away). -/
def spacesThenRest (cs : List Char) : Option (List Char) :=
  match take1Plus isSp cs with
  | none => none
  | some (r, m) =>
    if m.isEmpty then
      if 2 ≤ r.length then some [r.getLastD ' '] else none
    else lazyTail m

/-! ### `ONTListChecker.check_port_onts` (src/huawei_ont_list.py) -/

/-- Row filter `re.match(r'^\s*\d+\s+\w+\s+', line)` selecting status rows.
Adjacent classes (`\s`,`\d`,`\w`) are pairwise disjoint, so maximal munch is
exact. -/
def statusRowFilter (cs : List Char) : Bool :=
  (do
    let cs := cs.dropWhile isSp
    let (_, cs) ← take1Plus isDigitC cs
    let (_, cs) ← take1Plus isSp cs
    let (_, cs) ← take1Plus isWordC cs
    let (_, _) ← take1Plus isSp cs
    pure ()).isSome

/-- Row filter `re.match(r'^\s*\d+\s+[A-F0-9]+\s+', line)` selecting details
rows. -/
def detailsRowFilter (cs : List Char) : Bool :=
  (do
    let cs := cs.dropWhile isSp
    let (_, cs) ← take1Plus isDigitC cs
    let (_, cs) ← take1Plus isSp cs
    let (_, cs) ← take1Plus isHexUpC cs
    let (_, _) ← take1Plus isSp cs
    pure ()).isSome

/-- Captures of the status row pattern
`^\s*(\d+)\s+(\w+)\s+([\d-]+\s+[\d:]+)\s+([\d-]+\s+[\d:]+)\s+(.+?)\s*$`. -/
structure StatusGroups where
  g1 : List Char -- ONT id
  g2 : List Char -- run state
  g3 : List Char -- last up time
  g4 : List Char -- last down time
  g5 : List Char -- last down cause
  deriving Repr, DecidableEq

/-- Full (anchored both ends) match of the status row pattern.  Every greedy
class run is followed by a character outside the class, so maximal munch
coincides with Python's backtracking semantics. -/
def parseStatusLine (cs : List Char) : Option StatusGroups := do
  let cs := cs.dropWhile isSp
  let (g1, cs) ← take1Plus isDigitC cs
  let (_, cs) ← take1Plus isSp cs
  let (g2, cs) ← take1Plus isWordC cs
  let (_, cs) ← take1Plus isSp cs
  let (a1, cs) ← take1Plus isDateC cs
  let (s1, cs) ← take1Plus isSp cs
  let (b1, cs) ← take1Plus isTimeC cs
  let (_, cs) ← take1Plus isSp cs
  let (a2, cs) ← take1Plus isDateC cs
  let (s2, cs) ← take1Plus isSp cs
  let (b2, cs) ← take1Plus isTimeC cs
  let g5 ← spacesThenRest cs
  pure ⟨g1, g2, a1 ++ s1 ++ b1, a2 ++ s2 ++ b2, g5⟩

/-- Captures of the details row pattern
`^\s*(\d+)\s+([A-F0-9]+)\s+([^\s]+)\s+(\d+|\-)\s+([^/]+)/([^\s]+)\s+(.+?)\s*$`. -/
structure DetailsGroups where
  g1 : List Char -- ONT id
  g2 : List Char -- serial number
  g3 : List Char -- type
  g4 : List Char -- distance (digits, or the lone dash)
  g5 : List Char -- Rx power
  g6 : List Char -- Tx power
  g7 : List Char -- description
  deriving Repr, DecidableEq

/-- Full match of the details row pattern.  The alternation `(\d+|\-)` is
committed by the first character (a digit run can never be rescued by the
dash branch and vice versa), `([^/]+)` necessarily stops at the first slash,
and `([^\s]+)` at the first space, so the translation is deterministic. -/
def parseDetailsLine (cs : List Char) : Option DetailsGroups := do
  let cs := cs.dropWhile isSp
  let (g1, cs) ← take1Plus isDigitC cs
  let (_, cs) ← take1Plus isSp cs
  let (g2, cs) ← take1Plus isHexUpC cs
  let (_, cs) ← take1Plus isSp cs
  let (g3, cs) ← take1Plus isNonSpC cs
  let (_, cs) ← take1Plus isSp cs
  let (g4, cs) ←
    match take1Plus isDigitC cs with
    | some r => some r
    | none =>
      match cs with
      | '-' :: t => some (['-'], t)
      | _ => none
  let (_, cs) ← take1Plus isSp cs
  let (g5, cs) ← take1Plus isNonSlashC cs
  let cs ← match cs with
           | '/' :: t => some t
           | _ => none
  let (g6, cs) ← take1Plus isNonSpC cs
  let g7 ← spacesThenRest cs
  pure ⟨g1, g2, g3, g4, g5, g6, g7⟩

/-- Value stored in `status_dict` for one ONT id. -/
structure StatusRec where
  run_state : String
  last_up_time : String
  last_down_time : String
  last_down_cause : String
  deriving Repr, DecidableEq

/-- The default status used when an ONT id has no status row
(`status_dict.get(ont_id, {...})`). -/
def defaultStatus : StatusRec :=
  ⟨"unknown", "", "", ""⟩

/-- Python-`dict` insertion: overwrite in place if the key exists, else
append (insertion order preserved). -/
def dictUp {α : Type} (m : List (String × α)) (k : String) (v : α) :
    List (String × α) :=
  match m with
  | [] => [(k, v)]
  | (k', v') :: t => if k' = k then (k, v) :: t else (k', v') :: dictUp t k v

/-- Python-`dict` lookup with default. -/
def dictGet {α : Type} (m : List (String × α)) (k : String) (dflt : α) : α :=
  match m with
  | [] => dflt
  | (k', v) :: t => if k' = k then v else dictGet t k dflt

/-- Python-`dict` lookup returning an option. -/
def dictFind {α : Type} (m : List (String × α)) (k : String) : Option α :=
  match m with
  | [] => none
  | (k', v) :: t => if k' = k then some v else dictFind t k

/-- Section tag while scanning `output.split('\n')`. -/
inductive Sec where
  | start
  | status
  | details
  deriving Repr, DecidableEq

/-- Header substring that opens the status section (verbatim from the
source). -/
def statusHeader : List Char := "ONT  Run     Last".data

/-- Header substring that opens the details section (verbatim from the
source). -/
def detailsHeader : List Char := "ONT        SN        Type".data

/-- The section-splitting loop of `check_port_onts`: headers switch the
current section (and are themselves skipped), and a line is collected into a
section only when the corresponding row filter matches. -/
def sectionSplit : List (List Char) → Sec → List (List Char) × List (List Char)
  | [], _ => ([], [])
  | l :: rest, sec =>
    if hasSubL statusHeader l then sectionSplit rest Sec.status
    else if hasSubL detailsHeader l then sectionSplit rest Sec.details
    else
      let (ss, ds) := sectionSplit rest sec
      match sec with
      | Sec.status => if statusRowFilter l then (l :: ss, ds) else (ss, ds)
      | Sec.details => if detailsRowFilter l then (ss, l :: ds) else (ss, ds)
      | Sec.start => (ss, ds)

/-- `status_dict` built from the collected status lines. -/
def statusDictOf (stLines : List (List Char)) : List (String × StatusRec) :=
  stLines.foldl
    (fun m l =>
      match parseStatusLine l with
      | some g =>
        dictUp m g.g1.asString
          ⟨g.g2.asString, (stripL g.g3).asString, (stripL g.g4).asString,
            (stripL g.g5).asString⟩
      | none => m)
    []

/-- One extracted ONT record (`ont_info` in the source). -/
structure ONTInfo where
  frame : String
  slot : String
  port : String
  ont_id : String
  serial_number : String
  type : String
  distance : String
  optical_rx : String
  optical_tx : String
  description : String
  status : StatusRec
  deriving Repr, DecidableEq

/-- The body of the details loop: placeholder substitution (`'-'` for
distance or Rx power replaces all three numeric fields by `'0'`), unit
suffixing and the status lookup with default. -/
def detailsToRecord (frame slot port : String) (sd : List (String × StatusRec))
    (g : DetailsGroups) : ONTInfo :=
  let distance := g.g4
  let rx := stripL g.g5
  let tx := stripL g.g6
  let (distance, rx, tx) :=
    if distance = ['-'] || rx = ['-'] then (['0'], ['0'], ['0'])
    else (distance, rx, tx)
  { frame := frame
    slot := slot
    port := port
    ont_id := g.g1.asString
    serial_number := g.g2.asString
    type := g.g3.asString
    distance := distance.asString ++ "m"
    optical_rx := rx.asString ++ " dBm"
    optical_tx := tx.asString ++ " dBm"
    description := (stripL g.g7).asString
    status := dictGet sd g.g1.asString defaultStatus }

/-- `ONTListChecker.check_port_onts` applied to a captured output text. -/
def check_port_onts (frame slot port : String) (output : String) :
    List ONTInfo :=
  let lines := splitNl output.data
  let (stLines, dtLines) := sectionSplit lines Sec.start
  let sd := statusDictOf stLines
  (dtLines.filterMap parseDetailsLine).map (detailsToRecord frame slot port sd)

/-! ### `re.search` of the labelled field patterns (src/huawei_ont_status.py)

Every pattern in `patterns` / `optical_patterns` / `version_patterns` has the
shape `<literal label>\s*:\s*(<class>+)` (searched case-insensitively), so
`re.search` is: find the leftmost position at which the label matches
case-insensitively and is followed by optional whitespace, a colon, optional
whitespace and at least one class character; the capture is the maximal class
run. -/

/-- Case-insensitive consumption of a literal (Python `re.IGNORECASE`,
ASCII). -/
def matchCI : List Char → List Char → Option (List Char)
  | [], cs => some cs
  | _ :: _, [] => none
  | l :: ls, c :: cs => if l.toLower = c.toLower then matchCI ls cs else none

/-- Attempt the labelled pattern at the current position. -/
def tryLabeledAt (lbl : List Char) (cls : Char → Bool) (cs : List Char) :
    Option (List Char) := do
  let cs ← matchCI lbl cs
  let cs := cs.dropWhile isSp
  match cs with
  | ':' :: cs =>
    let (g, _) ← take1Plus cls (cs.dropWhile isSp)
    pure g
  | _ => none

/-- `re.search` of a labelled pattern: leftmost position where the whole
pattern matches. -/
def reSearchL (lbl : List Char) (cls : Char → Bool) : List Char →
    Option (List Char)
  | [] => tryLabeledAt lbl cls []
  | c :: t =>
    match tryLabeledAt lbl cls (c :: t) with
    | some g => some g
    | none => reSearchL lbl cls t

/-- The `optical_patterns` loop of `check_single_ont_status`: each matching
pattern contributes one entry (label literal, capture class and unit suffix
verbatim from the source); no placeholder filtering is applied here. -/
def opticalData (text : String) : List (String × String) :=
  let t := text.data
  let step (acc : List (String × String)) (key lbl unit : String) :
      List (String × String) :=
    match reSearchL lbl.data isNumC t with
    | some v => dictUp acc key ((stripL v).asString ++ unit)
    | none => acc
  let acc := step [] "rx" "Rx optical power(dBm)" " dBm"
  let acc := step acc "tx" "Tx optical power(dBm)" " dBm"
  let acc := step acc "olt_rx" "OLT Rx ONT optical power(dBm)" " dBm"
  let acc := step acc "voltage" "Voltage(V)" " V"
  let acc := step acc "current" "Bias current" " mA"
  step acc "temperature" " Temperature(C)" " °C"

/-- The guard around the optical section: skipped when the capture is empty
or reports an unknown command, and the `optical` metrics entry is only
assigned when at least one pattern matched. -/
def opticalMetrics (text : String) : Option (List (String × String)) :=
  if text = "" || hasSub "Unknown command" text then none
  else
    let d := opticalData text
    if d.isEmpty then none else some d

/-- One step of the main `patterns` loop of `check_single_ont_status`: the
captured value is assigned only when a match exists and its stripped text is
neither `'-'` nor empty; otherwise the field keeps its default. -/
def infoFieldValue (text : List Char) (lbl : List Char) (cls : Char → Bool)
    (dflt : String) (transform : String → String) : String :=
  match reSearchL lbl cls text with
  | some g =>
    let v := stripL g
    if v = ['-'] || v = [] then dflt else transform v.asString
  | none => dflt

/-! ### Session driver receive loops

The channel is modelled by a trace of poll events.  A `chunk` event is a
poll where `recv_ready()` is true and `recv` returns the given text; the
other events are polls where no data is ready.  Every interleaving of the
real channel corresponds to such a trace, so properties proved for all
traces hold for every schedule. -/

/-- Poll events for `ONTStatusChecker.execute_command`
(src/huawei_ont_status.py): after an idle poll the code sleeps 0.1 s and
polls again — `idleData` is an idle poll after which data has arrived (the
loop continues), `idleEnd` one after which the channel is still silent (the
loop breaks). -/
inductive StEv where
  | chunk (s : String)
  | idleData
  | idleEnd
  deriving Repr, DecidableEq

/-- Result of one command cycle, instrumented with the list of chunk texts
read and the exit cause.  The source function returns only `output`; the
remaining fields are ghost observations of the loop. -/
structure StRes where
  output : String
  spaces : Nat
  consumed : List String
  promptExit : Bool
  deriving Repr, DecidableEq

/-- The prompt substrings of `ONTStatusChecker.execute_command` (verbatim). -/
def statusPrompts : List String := ["(config)#", "(config-if-gpon-", ">", "#"]

/-- The receive loop of `ONTStatusChecker.execute_command`: a chunk holding
the pagination marker sends one space keystroke and keeps reading (the
`elif` prompt test is skipped for that chunk); a chunk holding a prompt
substring ends the loop; an exhausted trace ends the loop via the double
`recv_ready()` failure. -/
def statusLoopAux : List StEv → String → Nat → List String → StRes
  | [], out, n, cons => ⟨out, n, cons, false⟩
  | StEv.chunk s :: rest, out, n, cons =>
    let out' := out ++ s
    let cons' := cons ++ [s]
    if hasSub "---- More" s then statusLoopAux rest out' (n + 1) cons'
    else if statusPrompts.any (fun p => hasSub p s) then ⟨out', n, cons', true⟩
    else statusLoopAux rest out' n cons'
  | StEv.idleData :: rest, out, n, cons => statusLoopAux rest out n cons
  | StEv.idleEnd :: _, out, n, cons => ⟨out, n, cons, false⟩

/-- `ONTStatusChecker.execute_command`'s receive loop from the initial
state. -/
def statusExec (evs : List StEv) : StRes := statusLoopAux evs "" 0 []

/-- Poll events for `ONTListChecker.execute_command`
(src/huawei_ont_list.py): a `quiet` poll sleeps 0.5 s and re-enters the
loop. -/
inductive LsEv where
  | chunk (s : String)
  | quiet
  deriving Repr, DecidableEq

/-- The post-prompt drain `while recv_ready(): output += recv(...)`:
consumes the maximal run of immediately-ready chunks. -/
def drainRun : List LsEv → String × List String
  | LsEv.chunk s :: rest =>
    let (o, c) := drainRun rest
    (s ++ o, s :: c)
  | _ => ("", [])

/-- The receive loop of `ONTListChecker.execute_command`.  Time is counted
in tenths of a second: the 30 s deadline is 300 ticks, the 2 s sleep after a
pagination keystroke or a prompt 20 ticks, the 0.5 s idle sleep 5 ticks
(`start_time` is taken after the initial 5 s sleep, so the clock starts at
0).  An exhausted trace stands for a channel that stays silent, which the
real loop leaves through the same deadline check. -/
def listLoopAux : List LsEv → Nat → String → Nat → List String → StRes
  | [], _, out, n, cons => ⟨out, n, cons, false⟩
  | LsEv.chunk s :: rest, t, out, n, cons =>
    if 300 < t then ⟨out, n, cons, false⟩
    else
      let out' := out ++ s
      let cons' := cons ++ [s]
      if hasSub "---- More" s then listLoopAux rest (t + 20) out' (n + 1) cons'
      else if hasSub ")#" s || hasSub ")" s then
        let (d, dc) := drainRun rest
        ⟨out' ++ d, n, cons' ++ dc, true⟩
      else listLoopAux rest t out' n cons'
  | LsEv.quiet :: rest, t, out, n, cons =>
    if 300 < t then ⟨out, n, cons, false⟩
    else listLoopAux rest (t + 5) out n cons

/-- `ONTListChecker.execute_command`'s receive loop from the initial
state. -/
def listExec (evs : List LsEv) : StRes := listLoopAux evs 0 "" 0 []

/-! ### `HuaweiOLT` session state (huawei_ont_manager.py, both variants) -/

/-- The mutable context tracked by `HuaweiOLT`. -/
structure OLTState where
  current_frame : Option Int
  current_slot : Option Int
  current_interface : Option String
  deriving Repr, DecidableEq

/-- `HuaweiOLT.send_command`: raises when no channel is connected, otherwise
sends the line, sleeps a fixed interval and returns the concatenation of the
chunks then ready. -/
def send_command (channelOpen : Bool) (arrived : List String) :
    Except Unit String :=
  if channelOpen then Except.ok (String.join arrived) else Except.error ()

/-- Result of `configure_interface`, instrumented with whether the
interface-selection command was written to the channel. -/
structure CfgRes where
  ok : Bool
  st : OLTState
  wrote : Bool
  deriving Repr, DecidableEq

/-- `HuaweiOLT.configure_interface`: a no-op returning success when the
tracked frame/slot already match; otherwise one selection command is sent
(an exception from `send_command` is caught and reported as failure), an
error marker in the response reports failure without touching the tracked
context, and success updates all three context fields. -/
def configure_interface (st : OLTState) (frame_id slot_id : Int)
    (channelOpen : Bool) (arrived : List String) : CfgRes :=
  if st.current_frame = some frame_id ∧ st.current_slot = some slot_id then
    ⟨true, st, false⟩
  else
    match send_command channelOpen arrived with
    | Except.error _ => ⟨false, st, false⟩
    | Except.ok output =>
      if hasSub "Error" output || hasSub "error" output then ⟨false, st, true⟩
      else
        ⟨true,
          ⟨some frame_id, some slot_id,
            some ("GPON " ++ toString frame_id ++ "/" ++ toString slot_id)⟩,
          true⟩

/-! ### Batch orchestration -/

/-- One batch work item (`{"port": p, "ont": o}`). -/
structure WorkItem where
  port : Int
  ont : Int
  deriving Repr, DecidableEq

/-- The composite key `f"{port_id}/{ont_id}"`. -/
def itemKey (it : WorkItem) : String :=
  toString it.port ++ "/" ++ toString it.ont

/-- Outcome of one item of `reset_multiple_onts`: the device interaction for
the item either raises (caught by the per-item `except`, recorded as
failure) or yields the captured output, judged by the error-marker test
`'Error' in output or 'error' in output or 'Command' in output`. -/
def resetOutcome : Except Unit String → Bool
  | Except.error _ => false
  | Except.ok out =>
    !(hasSub "Error" out || hasSub "error" out || hasSub "Command" out)

/-- The per-item loop of `HuaweiOLT.reset_multiple_onts`
(src/huawei_ont_manager.py): `dev i` is the device interaction of the i-th
item; each outcome is stored into the Python result dict under the item's
composite key and iteration always continues. -/
def resetLoop (dev : Nat → Except Unit String) :
    List WorkItem → Nat → List (String × Bool) → List (String × Bool)
  | [], _, acc => acc
  | it :: rest, i, acc =>
    resetLoop dev rest (i + 1) (dictUp acc (itemKey it) (resetOutcome (dev i)))

/-- `HuaweiOLT.reset_multiple_onts`: an empty result when no interface is
configured, otherwise the per-item loop. -/
def reset_multiple_onts (st : OLTState) (items : List WorkItem)
    (dev : Nat → Except Unit String) : List (String × Bool) :=
  if st.current_interface = none then [] else resetLoop dev items 0 []

/-- The loop of `ONTStatusChecker.check_batch_ont_status`
(src/huawei_ont_status.py): the single-item operation is invoked for each
item with NO surrounding try/except, so an exception from one item
propagates and aborts the whole batch. -/
def checkBatchAux {R : Type} (op : Nat → WorkItem → Except Unit R) :
    List WorkItem → Nat → Except Unit (List R)
  | [], _ => Except.ok []
  | it :: rest, i =>
    match op i it with
    | Except.error e => Except.error e
    | Except.ok r =>
      match checkBatchAux op rest (i + 1) with
      | Except.error e => Except.error e
      | Except.ok rs => Except.ok (r :: rs)

/-- `ONTStatusChecker.check_batch_ont_status` from the first item. -/
def check_batch_ont_status {R : Type} (items : List WorkItem)
    (op : Nat → WorkItem → Except Unit R) : Except Unit (List R) :=
  checkBatchAux op items 0

/-- Indexed map used to state what `reset_multiple_onts` produces. -/
def mapWithIdx {α β : Type} (f : Nat → α → β) : Nat → List α → List β
  | _, [] => []
  | i, x :: xs => f i x :: mapWithIdx f (i + 1) xs

/-! ### Result normalizer `clean_dict` (src/huawei_ont_status.py) -/

/-- JSON-like values as produced by the extraction layer. -/
inductive Val where
  | vnull
  | vbool (b : Bool)
  | vint (n : Int)
  | vstr (s : String)
  | vlist (xs : List Val)
  | vdict (es : List (String × Val))
  deriving Repr

/-- Python `v in (None, "", {}, [])` for the non-dict branch of
`clean_dict` (an empty dict can only reach this test as a notional value:
the `isinstance` branch intercepts dicts first). -/
def isEmptyVal : Val → Bool
  | Val.vnull => true
  | Val.vstr s => s = ""
  | Val.vlist xs => xs.isEmpty
  | Val.vdict es => es.isEmpty
  | _ => false

/-- The entry loop of `clean_dict`: dict values are cleaned recursively and
kept only when non-empty; any other value is kept iff it is not one of
`None`, `""`, `{}`, `[]`.  Note that list values are NOT descended into. -/
def cleanEntries : List (String × Val) → List (String × Val)
  | [] => []
  | (k, Val.vdict es) :: rest =>
    let c := cleanEntries es
    if c.isEmpty then cleanEntries rest else (k, Val.vdict c) :: cleanEntries rest
  | (k, v) :: rest =>
    if isEmptyVal v then cleanEntries rest else (k, v) :: cleanEntries rest

/-- `clean_dict`: non-dict arguments are returned unchanged. -/
def clean_dict : Val → Val
  | Val.vdict es => Val.vdict (cleanEntries es)
  | v => v

/-- Recognizer for list values (used to state that `clean_dict` keeps them
verbatim). -/
def isListVal : Val → Bool
  | Val.vlist _ => true
  | _ => false

/-! ### Auxiliary definitions used in statements -/

/-- Concatenation of a list of strings (used to state that a command cycle
returns the concatenation of all chunks read). -/
def strConcat : List String → String
  | [] => ""
  | s :: rest => s ++ strConcat rest

/-- A chunk containing the pagination marker. -/
def isMarkerChunk (s : String) : Bool := hasSub "---- More" s

/-- A chunk containing one of the recognized prompt substrings of
`ONTStatusChecker.execute_command`. -/
def isPromptChunk (s : String) : Bool := statusPrompts.any (fun p => hasSub p s)

/-- The synthetic raw capture of the round-trip scenario: the status row and
details row of the claim, each under its section header. -/
def cap8 : String :=
  "ONT  Run     Last\n3 online 2024-01-01 10:00:00 2024-01-01 09:00:00 power-fail\nONT        SN        Type\n3 ABCD1234 ONTtype 120 -15.1/2.3 desc\n"

/-- A capture whose only details row carries the lone-dash placeholder in
the distance and optical columns. -/
def capDash : String :=
  "ONT        SN        Type\n5 ABCD 123H - -/- myont\n"

/-- A capture with one well-formed status row and no details row for that
ONT id. -/
def capStatusOnly : String :=
  "ONT  Run     Last\n7 online 2024-01-01 10:00:00 2024-01-01 09:00:00 adminDown\nONT        SN        Type\n"

/-- A capture with one well-formed details row and no status row for that
ONT id. -/
def capDetailsOnly : String :=
  "ONT        SN        Type\n5 ABCD 123H 77 -1.0/2.0 myont\n"

/-! ## Helper lemmas -/

theorem strData_append (a b : String) : (a ++ b).data = a.data ++ b.data := rfl

theorem strAppend_assoc (a b c : String) : a ++ b ++ c = a ++ (b ++ c) := by
  cases a; cases b; cases c
  exact congrArg String.mk (List.append_assoc _ _ _)

theorem strAppend_empty (s : String) : s ++ "" = s := by
  cases s
  exact congrArg String.mk (List.append_nil _)

theorem startsWithL_append (a b : List Char) : startsWithL a (a ++ b) = true := by
  induction a with
  | nil => rfl
  | cons c t ih => simp [startsWithL, ih]

theorem endsW_append (s suf : String) : endsW suf (s ++ suf) = true := by
  unfold endsW
  rw [strData_append, List.reverse_append]
  exact startsWithL_append _ _

theorem strConcat_cons (s : String) (l : List String) :
    strConcat (s :: l) = s ++ strConcat l := rfl

theorem dictGet_of_find_none {α : Type} (m : List (String × α)) (k : String)
    (dflt : α) (h : dictFind m k = none) : dictGet m k dflt = dflt := by
  induction m with
  | nil => rfl
  | cons kv t ih =>
    obtain ⟨k', v⟩ := kv
    by_cases hk : k' = k
    · simp [dictFind, hk] at h
    · simp [dictFind, hk] at h
      simp [dictGet, hk, ih h]

theorem dictUp_fresh {α : Type} (m : List (String × α)) (k : String) (v : α)
    (h : k ∉ m.map Prod.fst) : dictUp m k v = m ++ [(k, v)] := by
  induction m with
  | nil => rfl
  | cons kv t ih =>
    obtain ⟨k', v'⟩ := kv
    simp only [List.map_cons, List.mem_cons] at h
    push_neg at h
    simp [dictUp, Ne.symm h.1, ih h.2]

theorem dictUp_keys_fresh {α : Type} (m : List (String × α)) (k : String)
    (v : α) (h : k ∉ m.map Prod.fst) :
    (dictUp m k v).map Prod.fst = m.map Prod.fst ++ [k] := by
  rw [dictUp_fresh m k v h]
  simp

theorem statusLoopAux_spec (evs : List StEv) :
    ∀ (out : String) (n : Nat) (cons : List String),
      ∃ extra : List String,
        (statusLoopAux evs out n cons).consumed = cons ++ extra ∧
        (statusLoopAux evs out n cons).output = out ++ strConcat extra ∧
        (statusLoopAux evs out n cons).spaces =
          n + (extra.filter isMarkerChunk).length := by
  induction evs with
  | nil =>
    intro out n cons
    exact ⟨[], by simp [statusLoopAux, strConcat, strAppend_empty]⟩
  | cons e rest ih =>
    intro out n cons
    cases e with
    | chunk s =>
      by_cases hm : hasSub "---- More" s
      · obtain ⟨ex, h1, h2, h3⟩ := ih (out ++ s) (n + 1) (cons ++ [s])
        refine ⟨s :: ex, ?_, ?_, ?_⟩
        · simp [statusLoopAux, hm, h1]
        · simp [statusLoopAux, hm, h2, strConcat_cons, strAppend_assoc]
        · simp only [statusLoopAux, hm, if_true]
          rw [h3]
          simp [isMarkerChunk, hm]
          omega
      · by_cases hp : statusPrompts.any (fun p => hasSub p s)
        · refine ⟨[s], ?_, ?_, ?_⟩
          · simp [statusLoopAux, hm, hp]
          · simp [statusLoopAux, hm, hp, strConcat_cons, strConcat, strAppend_empty]
          · simp [statusLoopAux, hm, hp, isMarkerChunk]
        · obtain ⟨ex, h1, h2, h3⟩ := ih (out ++ s) n (cons ++ [s])
          refine ⟨s :: ex, ?_, ?_, ?_⟩
          · simp [statusLoopAux, hm, hp, h1]
          · simp [statusLoopAux, hm, hp, h2, strConcat_cons, strAppend_assoc]
          · simp [statusLoopAux, hm, hp, h3, isMarkerChunk]
    | idleData =>
      obtain ⟨ex, h1, h2, h3⟩ := ih out n cons
      exact ⟨ex, by simp [statusLoopAux, h1, h2, h3]⟩
    | idleEnd =>
      exact ⟨[], by simp [statusLoopAux, strConcat, strAppend_empty]⟩

theorem statusLoopAux_promptExit (evs : List StEv) :
    ∀ (out : String) (n : Nat) (cons : List String),
      (statusLoopAux evs out n cons).promptExit = true →
      ∃ last : String,
        (statusLoopAux evs out n cons).consumed.getLast? = some last ∧
        isMarkerChunk last = false ∧ isPromptChunk last = true := by
  induction evs with
  | nil => intro out n cons h; simp [statusLoopAux] at h
  | cons e rest ih =>
    intro out n cons h
    cases e with
    | chunk s =>
      by_cases hm : hasSub "---- More" s
      · simp only [statusLoopAux, hm, if_true] at h ⊢
        exact ih _ _ _ h
      · by_cases hp : statusPrompts.any (fun p => hasSub p s)
        · refine ⟨s, ?_, ?_, ?_⟩
          · simp [statusLoopAux, hm, hp]
          · simpa [isMarkerChunk] using hm
          · simpa [isPromptChunk] using hp
        · simp only [statusLoopAux, hm, hp, if_false] at h ⊢
          exact ih _ _ _ h
    | idleData =>
      simp only [statusLoopAux] at h ⊢
      exact ih _ _ _ h
    | idleEnd => simp [statusLoopAux] at h

theorem statusLoopAux_replicate_marker (k : Nat) :
    ∀ (out : String) (n : Nat) (cons : List String),
      (statusLoopAux (List.replicate k (StEv.chunk "---- More")) out n cons).spaces
        = n + k := by
  induction k with
  | zero => intro out n cons; simp [statusLoopAux]
  | succ k ih =>
    intro out n cons
    rw [List.replicate_succ]
    have hm : hasSub "---- More" "---- More" = true := by decide
    simp only [statusLoopAux, hm, if_true]
    rw [ih]
    omega

theorem drainRun_join (evs : List LsEv) :
    (drainRun evs).1 = strConcat (drainRun evs).2 := by
  induction evs with
  | nil => rfl
  | cons e rest ih =>
    cases e with
    | chunk s => simp [drainRun, strConcat_cons, ih]
    | quiet => rfl

theorem listLoopAux_output (evs : List LsEv) :
    ∀ (t : Nat) (out : String) (n : Nat) (cons : List String),
      ∃ extra : List String,
        (listLoopAux evs t out n cons).consumed = cons ++ extra ∧
        (listLoopAux evs t out n cons).output = out ++ strConcat extra := by
  induction evs with
  | nil =>
    intro t out n cons
    exact ⟨[], by simp [listLoopAux, strConcat, strAppend_empty]⟩
  | cons e rest ih =>
    intro t out n cons
    cases e with
    | chunk s =>
      by_cases ht : 300 < t
      · exact ⟨[], by simp [listLoopAux, ht, strConcat, strAppend_empty]⟩
      · by_cases hm : hasSub "---- More" s
        · obtain ⟨ex, h1, h2⟩ := ih (t + 20) (out ++ s) (n + 1) (cons ++ [s])
          refine ⟨s :: ex, ?_, ?_⟩
          · simp [listLoopAux, ht, hm, h1]
          · simp [listLoopAux, ht, hm, h2, strConcat_cons, strAppend_assoc]
        · by_cases hp : hasSub ")#" s || hasSub ")" s
          · refine ⟨s :: (drainRun rest).2, ?_, ?_⟩
            · simp [listLoopAux, ht, hm, hp]
            · simp [listLoopAux, ht, hm, hp, strConcat_cons, drainRun_join,
                strAppend_assoc]
          · obtain ⟨ex, h1, h2⟩ := ih t (out ++ s) n (cons ++ [s])
            refine ⟨s :: ex, ?_, ?_⟩
            · simp [listLoopAux, ht, hm, hp, h1]
            · simp [listLoopAux, ht, hm, hp, h2, strConcat_cons, strAppend_assoc]
    | quiet =>
      by_cases ht : 300 < t
      · exact ⟨[], by simp [listLoopAux, ht, strConcat, strAppend_empty]⟩
      · obtain ⟨ex, h1, h2⟩ := ih (t + 5) out n cons
        exact ⟨ex, by simp [listLoopAux, ht, h1, h2]⟩

theorem cleanEntries_nil : cleanEntries [] = [] := by
  rw [cleanEntries.eq_def]

theorem cleanEntries_cons_dict (k : String) (es rest : List (String × Val)) :
    cleanEntries ((k, Val.vdict es) :: rest) =
      if (cleanEntries es).isEmpty then cleanEntries rest
      else (k, Val.vdict (cleanEntries es)) :: cleanEntries rest := by
  rw [cleanEntries.eq_def]

theorem cleanEntries_cons_other (k : String) (v : Val)
    (rest : List (String × Val)) (h : ∀ es, v ≠ Val.vdict es) :
    cleanEntries ((k, v) :: rest) =
      if isEmptyVal v then cleanEntries rest
      else (k, v) :: cleanEntries rest := by
  rw [cleanEntries.eq_def]
  cases v with
  | vdict es => exact absurd rfl (h es)
  | vnull => rfl
  | vbool b => rfl
  | vint n => rfl
  | vstr s => rfl
  | vlist xs => rfl

theorem cleanEntries_idem (es : List (String × Val)) :
    cleanEntries (cleanEntries es) = cleanEntries es := by
  induction es using cleanEntries.induct with
  | case1 => simp [cleanEntries_nil]
  | case2 k es rest c hc ihes ihrest =>
    rw [cleanEntries_cons_dict, if_pos hc]
    exact ihrest
  | case3 k es rest c hc ihes ihrest =>
    rw [cleanEntries_cons_dict, if_neg hc, cleanEntries_cons_dict]
    simp only [ihes, ihrest]
    rw [if_neg hc]
  | case4 k v rest hnd hemp ih =>
    rw [cleanEntries_cons_other k v rest (fun es h => hnd es h), if_pos hemp]
    exact ih
  | case5 k v rest hnd hne ih =>
    rw [cleanEntries_cons_other k v rest (fun es h => hnd es h), if_neg hne]
    rw [cleanEntries_cons_other k v (cleanEntries rest) (fun es h => hnd es h),
      if_neg hne, ih]

theorem cleanEntries_no_empty (es : List (String × Val)) :
    ∀ kv, kv ∈ cleanEntries es → isEmptyVal kv.2 = false := by
  induction es using cleanEntries.induct with
  | case1 => intro kv h; rw [cleanEntries_nil] at h; simp at h
  | case2 k es rest c hc ihes ihrest =>
    intro kv h
    rw [cleanEntries_cons_dict, if_pos hc] at h
    exact ihrest kv h
  | case3 k es rest c hc ihes ihrest =>
    intro kv h
    rw [cleanEntries_cons_dict, if_neg hc] at h
    rcases List.mem_cons.mp h with h | h
    · subst h; simpa [isEmptyVal] using hc
    · exact ihrest kv h
  | case4 k v rest hnd hemp ih =>
    intro kv h
    rw [cleanEntries_cons_other k v rest (fun es h => hnd es h), if_pos hemp] at h
    exact ih kv h
  | case5 k v rest hnd hne ih =>
    intro kv h
    rw [cleanEntries_cons_other k v rest (fun es h => hnd es h), if_neg hne] at h
    rcases List.mem_cons.mp h with h | h
    · subst h; simpa using hne
    · exact ih kv h

theorem cleanEntries_list_verbatim (es : List (String × Val)) :
    ∀ kv, kv ∈ cleanEntries es → isListVal kv.2 = true → kv ∈ es := by
  induction es using cleanEntries.induct with
  | case1 => intro kv h _; rw [cleanEntries_nil] at h; simp at h
  | case2 k es rest c hc ihes ihrest =>
    intro kv h hl
    rw [cleanEntries_cons_dict, if_pos hc] at h
    exact List.mem_cons_of_mem _ (ihrest kv h hl)
  | case3 k es rest c hc ihes ihrest =>
    intro kv h hl
    rw [cleanEntries_cons_dict, if_neg hc] at h
    rcases List.mem_cons.mp h with h | h
    · subst h; simp [isListVal] at hl
    · exact List.mem_cons_of_mem _ (ihrest kv h hl)
  | case4 k v rest hnd hemp ih =>
    intro kv h hl
    rw [cleanEntries_cons_other k v rest (fun es h => hnd es h), if_pos hemp] at h
    exact List.mem_cons_of_mem _ (ih kv h hl)
  | case5 k v rest hnd hne ih =>
    intro kv h hl
    rw [cleanEntries_cons_other k v rest (fun es h => hnd es h), if_neg hne] at h
    rcases List.mem_cons.mp h with h | h
    · subst h; exact List.mem_cons_self _ _
    · exact List.mem_cons_of_mem _ (ih kv h hl)

theorem strEmpty_append (s : String) : "" ++ s = s := by
  cases s; rfl

theorem resetLoop_spec (dev : Nat → Except Unit String) :
    ∀ (items : List WorkItem) (i : Nat) (acc : List (String × Bool)),
      (items.map itemKey).Nodup →
      (∀ it ∈ items, itemKey it ∉ acc.map Prod.fst) →
      resetLoop dev items i acc =
        acc ++ mapWithIdx (fun j it => (itemKey it, resetOutcome (dev j))) i items := by
  intro items
  induction items with
  | nil => intro i acc _ _; simp [resetLoop, mapWithIdx]
  | cons it rest ih =>
    intro i acc hnd hfresh
    simp only [List.map_cons, List.nodup_cons] at hnd
    have hk : itemKey it ∉ acc.map Prod.fst :=
      hfresh it (List.mem_cons_self _ _)
    have hfresh2 :
        ∀ x ∈ rest,
          itemKey x ∉ (acc ++ [(itemKey it, resetOutcome (dev i))]).map Prod.fst := by
      intro x hx
      rw [List.map_append, List.mem_append]
      push_neg
      refine ⟨hfresh x (List.mem_cons_of_mem _ hx), ?_⟩
      simp only [List.map_cons, List.map_nil, List.mem_singleton]
      intro heq
      exact hnd.1 (heq ▸ List.mem_map_of_mem itemKey hx)
    simp only [resetLoop]
    rw [dictUp_fresh _ _ _ hk, ih (i + 1) _ hnd.2 hfresh2]
    simp only [mapWithIdx, List.append_assoc, List.singleton_append]

theorem configure_ok_sets_context (st : OLTState) (f s : Int) (ch : Bool)
    (ar : List String) (h : (configure_interface st f s ch ar).ok = true) :
    (configure_interface st f s ch ar).st.current_frame = some f ∧
    (configure_interface st f s ch ar).st.current_slot = some s := by
  unfold configure_interface send_command at h ⊢
  by_cases hc : st.current_frame = some f ∧ st.current_slot = some s
  · rw [if_pos hc] at h ⊢
    exact hc
  · rw [if_neg hc] at h ⊢
    cases ch with
    | false => simp at h
    | true =>
      simp only [if_true] at h ⊢
      by_cases hm :
          (hasSub "Error" (String.join ar) || hasSub "error" (String.join ar)) = true
      · rw [if_pos hm] at h
        simp at h
      · rw [if_neg hm] at h ⊢
        exact ⟨rfl, rfl⟩

/-! ## Claims -/

/-- C1 (amended): the receive loop of `ONTStatusChecker.execute_command`
sends exactly one continuation keystroke per received chunk that contains
the pagination marker — regardless of how many marker occurrences the chunk
holds — and never exits through prompt detection on a chunk that contains
the pagination marker (a prompt-detection exit happens only on a chunk with
a recognized prompt and no marker). -/
theorem C1_pagination_per_chunk :
    ∀ evs : List StEv,
      (statusExec evs).spaces =
        ((statusExec evs).consumed.filter isMarkerChunk).length ∧
      ((statusExec evs).promptExit = true →
        ∃ last : String,
          (statusExec evs).consumed.getLast? = some last ∧
          isMarkerChunk last = false ∧ isPromptChunk last = true) := by
  intro evs
  constructor
  · obtain ⟨ex, h1, _, h3⟩ := statusLoopAux_spec evs "" 0 []
    unfold statusExec
    rw [h1, h3]
    simp
  · intro h
    exact statusLoopAux_promptExit evs "" 0 [] h

/-- C1 witness: a trace ending in a prompt chunk exits by prompt detection,
with the final chunk marker-free, at a concrete input. -/
theorem C1_pagination_per_chunk_witness :
    ∃ last : String,
      (statusExec [StEv.chunk "#"]).consumed.getLast? = some last ∧
      isMarkerChunk last = false ∧ isPromptChunk last = true :=
  (C1_pagination_per_chunk [StEv.chunk "#"]).2 (by decide)

/-- C1 counterexample: a chunk holding two pagination-marker occurrences
triggers only one continuation keystroke (not one per occurrence), and no
cap on the number of continuation keystrokes per command exists — for every
candidate cap there is a trace that exceeds it. -/
theorem C1_counterexample :
    ((statusExec [StEv.chunk "---- More ---- More x", StEv.chunk "#"]).spaces = 1 ∧
      countSub "---- More" "---- More ---- More x" = 2) ∧
    ¬ ∃ cap : Nat, ∀ evs : List StEv, (statusExec evs).spaces ≤ cap := by
  constructor
  · constructor
    · decide
    · decide
  · rintro ⟨cap, hcap⟩
    have h := statusLoopAux_replicate_marker (cap + 1) "" 0 []
    have h2 := hcap (List.replicate (cap + 1) (StEv.chunk "---- More"))
    unfold statusExec at h2
    rw [h] at h2
    omega

/-- C2 (amended): the receive loop of `ONTListChecker.execute_command`
returns exactly the concatenation of every chunk it read (including the
post-prompt drain), on every exit path: a deadline exit still returns all
text captured so far, so partial output is never discarded and a timeout is
not a hard failure — but the caller receives only this text, with no
completion flag. -/
theorem C2_output_is_concat :
    ∀ evs : List LsEv, (listExec evs).output = strConcat (listExec evs).consumed := by
  intro evs
  obtain ⟨ex, h1, h2⟩ := listLoopAux_output evs 0 "" 0 []
  unfold listExec
  rw [h1, h2, List.nil_append, strEmpty_append]

/-- C2 counterexample: a capture completed by prompt detection and a capture
abandoned by the deadline can return the identical text, so the caller
receives no completion flag distinguishing them. -/
theorem C2_counterexample :
    (listExec [LsEv.chunk "(config)# ", LsEv.chunk "---- More"]).output =
      (listExec [LsEv.chunk "(config)# ---- More"]).output ∧
    (listExec [LsEv.chunk "(config)# ", LsEv.chunk "---- More"]).promptExit = true ∧
    (listExec [LsEv.chunk "(config)# ---- More"]).promptExit = false := by
  refine ⟨?_, ?_, ?_⟩
  · decide
  · decide
  · decide

/-- C3 (amended): every record produced by `check_port_onts` carries its
unit suffixes (`…m`, `… dBm`); a details row whose raw distance group is the
lone dash (or whose Rx group strips to the lone dash) yields the substitute
literal `'0'` with the unit suffix (`"0m"`, `"0 dBm"`) — not the empty
value; and the optical extraction of the status checker propagates a
lone-dash reading verbatim with its unit suffix (`"- dBm"`), while the main
info extraction normalizes a lone-dash match to the field's default. -/
theorem C3_placeholder_and_units :
    (∀ (f s p output : String) (r : ONTInfo), r ∈ check_port_onts f s p output →
        endsW "m" r.distance = true ∧ endsW " dBm" r.optical_rx = true ∧
        endsW " dBm" r.optical_tx = true) ∧
    (∀ (f s p : String) (sd : List (String × StatusRec)) (g : DetailsGroups),
        g.g4 = ['-'] ∨ stripL g.g5 = ['-'] →
        (detailsToRecord f s p sd g).distance = "0m" ∧
        (detailsToRecord f s p sd g).optical_rx = "0 dBm" ∧
        (detailsToRecord f s p sd g).optical_tx = "0 dBm") ∧
    opticalMetrics "Rx optical power(dBm)    : -\r\n" = some [("rx", "- dBm")] ∧
    (∀ (text : List Char) (dflt : String) (transform : String → String)
        (g : List Char),
        reSearchL "Last down cause".data isNonNlC text = some g →
        stripL g = ['-'] →
        infoFieldValue text "Last down cause".data isNonNlC dflt transform = dflt) := by
  refine ⟨?_, ?_, ?_, ?_⟩
  · intro f s p output r hr
    simp only [check_port_onts] at hr
    rw [List.mem_map] at hr
    obtain ⟨g, hg, rfl⟩ := hr
    unfold detailsToRecord
    by_cases hc : g.g4 = ['-'] ∨ stripL g.g5 = ['-']
    · have hb : (decide (g.g4 = ['-']) || decide (stripL g.g5 = ['-'])) = true := by
        rcases hc with hc | hc <;> simp [hc]
      simp only [hb, if_true]
      exact ⟨endsW_append _ _, endsW_append _ _, endsW_append _ _⟩
    · push_neg at hc
      have hb : (decide (g.g4 = ['-']) || decide (stripL g.g5 = ['-'])) = false := by
        simp [hc.1, hc.2]
      simp only [hb, Bool.false_eq_true, if_false]
      exact ⟨endsW_append _ _, endsW_append _ _, endsW_append _ _⟩
  · intro f s p sd g hc
    have hb : (decide (g.g4 = ['-']) || decide (stripL g.g5 = ['-'])) = true := by
      rcases hc with hc | hc <;> simp [hc]
    unfold detailsToRecord
    simp only [hb, if_true]
    exact ⟨rfl, rfl, rfl⟩
  · decide
  · intro text dflt transform g hsearch hdash
    unfold infoFieldValue
    rw [hsearch]
    simp [hdash]

/-- C3 witness: the unit-suffix part at the record extracted from the
dash-placeholder capture, and the substitution part at its details groups. -/
theorem C3_placeholder_and_units_witness :
    (endsW "m" (ONTInfo.distance ⟨"0", "0", "1", "5", "ABCD", "123H", "0m",
        "0 dBm", "0 dBm", "myont", ⟨"unknown", "", "", ""⟩⟩) = true ∧
      endsW " dBm" (ONTInfo.optical_rx ⟨"0", "0", "1", "5", "ABCD", "123H", "0m",
        "0 dBm", "0 dBm", "myont", ⟨"unknown", "", "", ""⟩⟩) = true ∧
      endsW " dBm" (ONTInfo.optical_tx ⟨"0", "0", "1", "5", "ABCD", "123H", "0m",
        "0 dBm", "0 dBm", "myont", ⟨"unknown", "", "", ""⟩⟩) = true) ∧
    ((detailsToRecord "0" "0" "1" []
        ⟨"5".data, "ABCD".data, "123H".data, ['-'], ['-'], ['-'], "myont".data⟩).distance
        = "0m" ∧
      (detailsToRecord "0" "0" "1" []
        ⟨"5".data, "ABCD".data, "123H".data, ['-'], ['-'], ['-'], "myont".data⟩).optical_rx
        = "0 dBm" ∧
      (detailsToRecord "0" "0" "1" []
        ⟨"5".data, "ABCD".data, "123H".data, ['-'], ['-'], ['-'], "myont".data⟩).optical_tx
        = "0 dBm") ∧
    infoFieldValue "Last down cause : -".data "Last down cause".data isNonNlC ""
        (fun v => v) = "" :=
  ⟨C3_placeholder_and_units.1 "0" "0" "1" capDash
      ⟨"0", "0", "1", "5", "ABCD", "123H", "0m", "0 dBm", "0 dBm", "myont",
        ⟨"unknown", "", "", ""⟩⟩ (by decide),
    C3_placeholder_and_units.2.1 "0" "0" "1" []
      ⟨"5".data, "ABCD".data, "123H".data, ['-'], ['-'], ['-'], "myont".data⟩
      (Or.inl rfl),
    C3_placeholder_and_units.2.2.2 "Last down cause : -".data "" (fun v => v)
      ['-'] (by decide) (by decide)⟩

/-- C3 counterexample: the capture whose details row carries lone-dash
distance and optical readings extracts to `"0m"` / `"0 dBm"` — a substitute
literal with unit suffix, not the empty value the claim requires. -/
theorem C3_counterexample :
    check_port_onts "0" "0" "1" capDash =
      [⟨"0", "0", "1", "5", "ABCD", "123H", "0m", "0 dBm", "0 dBm", "myont",
        ⟨"unknown", "", "", ""⟩⟩] := by
  decide

/-- C4 (amended): the records produced by `check_port_onts` correspond
exactly to the rows of the details section that match the details pattern —
so a status row with no details counterpart yields no record — while a
details row whose ONT id is absent from the status dictionary still yields a
record, carrying the default status fields. -/
theorem C4_correlation :
    (∀ (f s p output : String),
        (check_port_onts f s p output).map ONTInfo.ont_id =
          (((sectionSplit (splitNl output.data) Sec.start).2).filterMap
            parseDetailsLine).map (fun g => g.g1.asString)) ∧
    (∀ (f s p output : String) (r : ONTInfo), r ∈ check_port_onts f s p output →
        dictFind (statusDictOf (sectionSplit (splitNl output.data) Sec.start).1)
          r.ont_id = none →
        r.status = defaultStatus) := by
  constructor
  · intro f s p output
    simp only [check_port_onts, List.map_map]
    rfl
  · intro f s p output r hr hfind
    simp only [check_port_onts] at hr
    rw [List.mem_map] at hr
    obtain ⟨g, hg, rfl⟩ := hr
    show dictGet _ _ _ = defaultStatus
    exact dictGet_of_find_none _ _ _ hfind

/-- C4 witness: at the details-only capture, the extracted record's status
is the default placeholder record. -/
theorem C4_correlation_witness :
    ONTInfo.status ⟨"0", "0", "1", "5", "ABCD", "123H", "77m", "-1.0 dBm",
        "2.0 dBm", "myont", defaultStatus⟩ = defaultStatus :=
  C4_correlation.2 "0" "0" "1" capDetailsOnly
    ⟨"0", "0", "1", "5", "ABCD", "123H", "77m", "-1.0 dBm", "2.0 dBm", "myont",
      defaultStatus⟩ (by decide) (by decide)

/-- C4 counterexample: a status row with no details counterpart is parsed
into the status dictionary yet yields no record at all — it is dropped,
not emitted with default details fields. -/
theorem C4_counterexample :
    dictFind (statusDictOf (sectionSplit (splitNl capStatusOnly.data) Sec.start).1)
        "7" =
      some ⟨"online", "2024-01-01 10:00:00", "2024-01-01 09:00:00", "adminDown"⟩ ∧
    check_port_onts "0" "0" "1" capStatusOnly = [] := by
  constructor
  · decide
  · decide

/-- C5 (amended): `HuaweiOLT.reset_multiple_onts` catches a failure or
exception of any single item's device interaction, records it as a failure
outcome under the item's composite key, and continues: with the interface
configured and pairwise-distinct composite keys it returns exactly one entry
per work item, each carrying its own outcome independently of the other
items.  (`ONTStatusChecker.check_batch_ont_status`, by contrast, has no
per-item catch: see the counterexample.) -/
theorem C5_batch_isolation :
    ∀ (st : OLTState) (items : List WorkItem) (dev : Nat → Except Unit String),
      st.current_interface ≠ none →
      (items.map itemKey).Nodup →
      reset_multiple_onts st items dev =
        mapWithIdx (fun i it => (itemKey it, resetOutcome (dev i))) 0 items := by
  intro st items dev hif hnd
  unfold reset_multiple_onts
  rw [if_neg hif]
  have h := resetLoop_spec dev items 0 [] hnd (by intro it _; simp)
  simpa using h

/-- C5 witness: a 3-item batch whose second item raises still yields three
entries, items 1 and 3 with their true outcomes and item 2 a failure. -/
theorem C5_batch_isolation_witness :
    reset_multiple_onts ⟨some 0, some 1, some "GPON 0/1"⟩
      [⟨1, 1⟩, ⟨1, 2⟩, ⟨1, 3⟩]
      (fun i => if i = 1 then Except.error () else Except.ok "success") =
      [("1/1", true), ("1/2", false), ("1/3", true)] :=
  (C5_batch_isolation ⟨some 0, some 1, some "GPON 0/1"⟩
      [⟨1, 1⟩, ⟨1, 2⟩, ⟨1, 3⟩]
      (fun i => if i = 1 then Except.error () else Except.ok "success")
      (by simp) (by decide)).trans (by decide)

/-- C5 counterexample: `check_batch_ont_status` over three items whose
second single-item operation raises propagates the exception and aborts the
whole batch — the result is the error, not a mapping with three entries, and
the true outcomes of items 1 and 3 are lost. -/
theorem C5_counterexample :
    check_batch_ont_status [⟨1, 1⟩, ⟨1, 2⟩, ⟨1, 3⟩]
      (fun i _ => if i = 1 then Except.error () else Except.ok i) =
      Except.error () := by
  rfl

/-- C6 (amended): when a call to `configure_interface` succeeds, an
immediately repeated call with the same frame/slot is a no-op — it writes
nothing to the channel, returns success and leaves the tracked context
unchanged — so the selection command is issued at most once across the two
calls; after a FAILED first call, however, the context is not updated and
the repeated call issues the selection command again. -/
theorem C6_noop_after_success :
    ∀ (st : OLTState) (f s : Int) (ch : Bool) (ar : List String)
      (ch2 : Bool) (ar2 : List String),
      (configure_interface st f s ch ar).ok = true →
      (configure_interface (configure_interface st f s ch ar).st f s ch2 ar2).wrote
          = false ∧
      (configure_interface (configure_interface st f s ch ar).st f s ch2 ar2).ok
          = true ∧
      (configure_interface (configure_interface st f s ch ar).st f s ch2 ar2).st
          = (configure_interface st f s ch ar).st := by
  intro st f s ch ar ch2 ar2 h
  have hctx := configure_ok_sets_context st f s ch ar h
  have h2 : configure_interface (configure_interface st f s ch ar).st f s ch2 ar2
      = ⟨true, (configure_interface st f s ch ar).st, false⟩ := by
    conv_lhs => rw [configure_interface]
    rw [if_pos hctx]
  rw [h2]
  exact ⟨rfl, rfl, rfl⟩

/-- C6 witness: a successful selection followed by a repeat of the same
frame/slot at a concrete input. -/
theorem C6_noop_after_success_witness :
    (configure_interface (configure_interface ⟨none, none, none⟩ 1 2 true
        ["gpon 1/2(config-if-gpon-1/2)#"]).st 1 2 true ["ignored"]).wrote = false ∧
    (configure_interface (configure_interface ⟨none, none, none⟩ 1 2 true
        ["gpon 1/2(config-if-gpon-1/2)#"]).st 1 2 true ["ignored"]).ok = true ∧
    (configure_interface (configure_interface ⟨none, none, none⟩ 1 2 true
        ["gpon 1/2(config-if-gpon-1/2)#"]).st 1 2 true ["ignored"]).st =
      (configure_interface ⟨none, none, none⟩ 1 2 true
        ["gpon 1/2(config-if-gpon-1/2)#"]).st :=
  C6_noop_after_success ⟨none, none, none⟩ 1 2 true
    ["gpon 1/2(config-if-gpon-1/2)#"] true ["ignored"] (by decide)

/-- C6 counterexample: when the first call fails (error marker in the
response), two consecutive calls with the identical frame/slot each write
the selection command — two issues, violating "at most once". -/
theorem C6_counterexample :
    (configure_interface ⟨none, none, none⟩ 1 2 true
        ["Error: failed to select"]).wrote = true ∧
    (configure_interface (configure_interface ⟨none, none, none⟩ 1 2 true
        ["Error: failed to select"]).st 1 2 true
        ["Error: failed to select"]).wrote = true := by
  constructor
  · decide
  · decide

/-- C7: when the selection command is actually sent (the tracked context
differs from the target) and the device response contains an error marker,
`configure_interface` fails and leaves the tracked context — current frame,
current slot, current interface — exactly as it was before the call. -/
theorem C7_error_leaves_context :
    ∀ (st : OLTState) (f s : Int) (ar : List String),
      ¬(st.current_frame = some f ∧ st.current_slot = some s) →
      (hasSub "Error" (String.join ar) || hasSub "error" (String.join ar)) = true →
      configure_interface st f s true ar = ⟨false, st, true⟩ := by
  intro st f s ar hctx hmark
  unfold configure_interface send_command
  rw [if_neg hctx]
  simp [hmark]

/-- C7 witness: a concrete error response leaves the fresh context
untouched and reports failure. -/
theorem C7_error_leaves_context_witness :
    configure_interface ⟨none, none, none⟩ 1 2 true ["Error: no such slot"] =
      ⟨false, ⟨none, none, none⟩, true⟩ :=
  C7_error_leaves_context ⟨none, none, none⟩ 1 2 ["Error: no such slot"]
    (by simp) (by decide)

/-- C8: on the synthetic capture holding the claim's status row and details
row under their section headers, extraction yields exactly one record with
ont_id 3, serial ABCD1234, distance "120m", Rx "-15.1 dBm", Tx "2.3 dBm",
run state online and last down cause power-fail. -/
theorem C8_roundtrip :
    check_port_onts "0" "1" "2" cap8 =
      [⟨"0", "1", "2", "3", "ABCD1234", "ONTtype", "120m", "-15.1 dBm",
        "2.3 dBm", "desc",
        ⟨"online", "2024-01-01 10:00:00", "2024-01-01 09:00:00", "power-fail"⟩⟩] := by
  decide

/-- C9 (amended): `clean_dict` prunes empty direct fields and recurses into
dict-valued fields (every surviving entry is non-empty), but it does not
descend into lists — a list value that survives is kept verbatim from the
input, so empty fields of records nested inside lists are not pruned. -/
theorem C9_prune_shallow :
    ∀ es : List (String × Val),
      (∀ kv, kv ∈ cleanEntries es → isEmptyVal kv.2 = false) ∧
      (∀ kv, kv ∈ cleanEntries es → isListVal kv.2 = true → kv ∈ es) :=
  fun es => ⟨cleanEntries_no_empty es, cleanEntries_list_verbatim es⟩

/-- C9 witness: at a concrete record, the surviving entry is non-empty and
the surviving list value is the input's, verbatim. -/
theorem C9_prune_shallow_witness :
    isEmptyVal (Val.vlist [Val.vdict [("b", Val.vstr "")]]) = false ∧
    ("a", Val.vlist [Val.vdict [("b", Val.vstr "")]]) ∈
      [("a", Val.vlist [Val.vdict [("b", Val.vstr "")]]), ("c", Val.vstr "")] := by
  have hmem : ("a", Val.vlist [Val.vdict [("b", Val.vstr "")]]) ∈
      cleanEntries
        [("a", Val.vlist [Val.vdict [("b", Val.vstr "")]]), ("c", Val.vstr "")] := by
    rw [cleanEntries_cons_other _ _ _ (fun es h => Val.noConfusion h),
      if_neg (by decide)]
    exact List.mem_cons_self _ _
  exact ⟨(C9_prune_shallow _).1 _ hmem, (C9_prune_shallow _).2 _ hmem rfl⟩

/-- C9 counterexample: a record whose only content is an empty field inside
a dict nested in a list passes through `clean_dict` unchanged — the empty
field is not pruned, contradicting recursive pruning through lists. -/
theorem C9_counterexample :
    clean_dict (Val.vdict [("a", Val.vlist [Val.vdict [("b", Val.vstr "")]])]) =
      Val.vdict [("a", Val.vlist [Val.vdict [("b", Val.vstr "")]])] := by
  show Val.vdict (cleanEntries _) = _
  rw [cleanEntries_cons_other _ _ _ (fun es h => Val.noConfusion h),
    if_neg (by decide), cleanEntries_nil]

/-- C10: the result normalizer is idempotent — applying `clean_dict` to an
already-normalized record yields the identical record. -/
theorem C10_normalizer_idempotent :
    ∀ v : Val, clean_dict (clean_dict v) = clean_dict v := by
  intro v
  cases v with
  | vdict es => simp [clean_dict, cleanEntries_idem]
  | vnull => rfl
  | vbool b => rfl
  | vint n => rfl
  | vstr s => rfl
  | vlist xs => rfl
